import Mathlib

/-!
Shallow embedding of the FreightChess core (`src/main.rs`): the packed board
encoding, coordinate validation, piece accessors and the (stubbed) game-engine
operations, together with proofs of the specification claims about them.

Machine bytes (`u8`) are modelled as `Nat`; every operation that could wrap in
`u8` arithmetic carries an explicit `% 256`.  The bit-twiddling helper
constants of the source keep their names.
-/

set_option maxRecDepth 100000

namespace FreightChess

/-! ## Piece constants (src/main.rs lines 13-25) -/

def EMPTY : Nat := 0
def PAWN : Nat := 1
def KNIGHT : Nat := 2
def ROOK : Nat := 3
def BISHOP : Nat := 4
def QUEEN : Nat := 5
def KING : Nat := 6

def WHITE : Nat := 0
def BLACK : Nat := 8

def LEFT_MASK : Nat := 0xF0
def RIGHT_MASK : Nat := 0x0F

/-! ## Bit-manipulation helpers (src/main.rs lines 28-51) -/

def GET_LEFT (s : Nat) : Nat := (s &&& LEFT_MASK) >>> 4

def GET_RIGHT (s : Nat) : Nat := s &&& RIGHT_MASK

def GET_NUM (s : Nat) : Nat := s &&& 0b0111

def GET_COLOR (s : Nat) : Nat := (s &&& BLACK) >>> 3

/-- `SET_BLACK`: `(s | BLACK) * (s != EMPTY) as u8` — note it maps `EMPTY` to `0`,
so a "black empty" is stored with the color bit cleared. -/
def SET_BLACK (s : Nat) : Nat := (s ||| BLACK) * (if s ≠ EMPTY then 1 else 0)

/-- `SET_WHITE`: `s & !BLACK` where `!BLACK : u8 = 0xF7`. -/
def SET_WHITE (s : Nat) : Nat := s &&& (255 ^^^ BLACK)

/-- `SET_CELL_PAIR`: `(left << 4) + right` on `u8` (wrapping, hence `% 256`). -/
def SET_CELL_PAIR (left right : Nat) : Nat := ((left <<< 4) + right) % 256

def GET_CELL_PAIR (pair : Nat) : Nat × Nat := (GET_LEFT pair, GET_RIGHT pair)

def SET_LEFT (pair left : Nat) : Nat := SET_CELL_PAIR left (GET_RIGHT pair)

def SET_RIGHT (pair right : Nat) : Nat := SET_CELL_PAIR (GET_LEFT pair) right

/-- If the boolean is true, get the right piece, otherwise, get the left piece. -/
def GET_CELL_BOOLEAN (pair : Nat) (side : Bool) : Nat :=
  GET_RIGHT pair * (if side then 1 else 0) + GET_LEFT pair * (if side then 0 else 1)

/-- If the boolean is true, set the right piece, otherwise, set the left piece. -/
def SET_CELL_BOOLEAN (pair : Nat) (side : Bool) (piece : Nat) : Nat :=
  SET_RIGHT pair piece * (if side then 1 else 0) + SET_LEFT pair piece * (if side then 0 else 1)

/-! ## Errors (src/main.rs lines 70-75) -/

inductive ChessErr : Type
  | InvalidIndexing (msg : String)
  | BadMove (msg : String)
  | IllegalCommand (msg : String)
deriving DecidableEq, Repr

instance {α β : Type} [DecidableEq α] [DecidableEq β] : DecidableEq (Except α β) := fun x y =>
  match x, y with
  | .ok a, .ok b => if h : a = b then .isTrue (by rw [h]) else .isFalse (by simp [h])
  | .error a, .error b => if h : a = b then .isTrue (by rw [h]) else .isFalse (by simp [h])
  | .ok _, .error _ => .isFalse (by simp)
  | .error _, .ok _ => .isFalse (by simp)

/-! ## The board (src/main.rs lines 78-102)

`board: [[u8; 4]; 8]` is modelled as a function `Fin 8 → Fin 4 → Nat`;
`moves: u16` as a `Nat`. -/

structure ChessBoard : Type where
  board : Fin 8 → Fin 4 → Nat
  moves : Nat

/-- Array read `board[r][c]`; in the source every read happens at validated
in-range indices, so the out-of-range default is never reached. -/
def readCell (bd : Fin 8 → Fin 4 → Nat) (r c : Nat) : Nat :=
  if h : r < 8 ∧ c < 4 then bd ⟨r, h.1⟩ ⟨c, h.2⟩ else 0

/-- Array write `board[r][c] = v` (in-range indices only, as in `readCell`). -/
def writeCell (bd : Fin 8 → Fin 4 → Nat) (r c v : Nat) : Fin 8 → Fin 4 → Nat :=
  fun i j => if i.val = r ∧ j.val = c then v else bd i j

/-- The literal initial array of `ChessBoard::new` (src/main.rs lines 106-140),
row by row; rows 2-5 are the all-zero rows. -/
def initCell : Nat → Nat → Nat
  | 0, 0 => SET_CELL_PAIR (SET_WHITE ROOK) (SET_WHITE KNIGHT)
  | 0, 1 => SET_CELL_PAIR (SET_WHITE BISHOP) (SET_WHITE QUEEN)
  | 0, 2 => SET_CELL_PAIR (SET_WHITE KING) (SET_WHITE BISHOP)
  | 0, 3 => SET_CELL_PAIR (SET_WHITE KNIGHT) (SET_WHITE ROOK)
  | 1, _ => SET_CELL_PAIR (SET_WHITE PAWN) (SET_WHITE PAWN)
  | 6, _ => SET_CELL_PAIR (SET_BLACK PAWN) (SET_BLACK PAWN)
  | 7, 0 => SET_CELL_PAIR (SET_BLACK ROOK) (SET_BLACK KNIGHT)
  | 7, 1 => SET_CELL_PAIR (SET_BLACK BISHOP) (SET_BLACK QUEEN)
  | 7, 2 => SET_CELL_PAIR (SET_BLACK KING) (SET_BLACK BISHOP)
  | 7, 3 => SET_CELL_PAIR (SET_BLACK KNIGHT) (SET_BLACK ROOK)
  | _, _ => 0

/-- `ChessBoard::new` (src/main.rs lines 106-140). -/
def ChessBoard.new : ChessBoard :=
  { board := fun i j => initCell i.val j.val, moves := 0 }

/-- `ChessBoard::is_valid_piece` (src/main.rs lines 181-187).  The source
indexes `coord[0]`/`coord[1]` only after the `coord.len() != 2` disjunct has
short-circuited; here `List.getD` makes the reads total, with the same value on
every length-2 slice. -/
def is_valid_piece (coord : List Nat) : Bool :=
  !(decide (coord.length ≠ 2)
    || decide (coord.getD 0 0 &&& 0xF0 ≠ 96)
    || !(decide (1 ≤ coord.getD 0 0 &&& 0x0F) && decide (coord.getD 0 0 &&& 0x0F ≤ 8))
    || !(decide (1 ≤ coord.getD 1 0 &&& 0x0F) && decide (coord.getD 1 0 &&& 0x0F ≤ 8))
    || decide (coord.getD 1 0 &&& 0xF0 ≠ 48))

/-- `ChessBoard::get_piece_at_bytes` (src/main.rs lines 142-151). -/
def ChessBoard.get_piece_at_bytes (self : ChessBoard) (coord : List Nat) :
    Except ChessErr Nat :=
  if !is_valid_piece coord then
    Except.error (ChessErr.InvalidIndexing "This is an invalid index")
  else
    Except.ok (GET_CELL_BOOLEAN
      (readCell self.board ((coord.getD 1 0 &&& 0x0F) - 1) (((coord.getD 0 0 - 1) &&& 0b0110) >>> 1))
      (decide ((coord.getD 0 0 - 1) &&& 1 ≠ 0)))

/-- `ChessBoard::set_piece_at_bytes` (src/main.rs lines 154-168); the `&mut self`
mutation becomes explicit state passing. -/
def ChessBoard.set_piece_at_bytes (self : ChessBoard) (coord : List Nat) (piece : Nat) :
    Except ChessErr ChessBoard :=
  if !is_valid_piece coord then
    Except.error (ChessErr.InvalidIndexing "This is an invalid index")
  else
    Except.ok { self with
      board := writeCell self.board
        ((coord.getD 1 0 &&& 0x0F) - 1)
        (((coord.getD 0 0 - 1) &&& 0b0110) >>> 1)
        (SET_CELL_BOOLEAN
          (readCell self.board ((coord.getD 1 0 &&& 0x0F) - 1) (((coord.getD 0 0 - 1) &&& 0b0110) >>> 1))
          (decide ((coord.getD 0 0 - 1) &&& 1 ≠ 0))
          piece) }

/-- Outcome of `ChessBoard::make_move`: the Rust `Result<(), ChessErr>` plus a
separate constructor for the `todo!()` macro, which panics instead of
returning.  `success` is what `Ok(())` would be; the source never produces it. -/
inductive MoveOutcome : Type
  | success
  | failure (e : ChessErr)
  | unimplemented
deriving DecidableEq, Repr

/-- `ChessBoard::make_move` (src/main.rs lines 170-175): reads the source
square, writes its piece to the destination, then hits `todo!()`.  The returned
board is the state at the moment of return / panic. -/
def ChessBoard.make_move (self : ChessBoard) (move_from move_to : List Nat) :
    ChessBoard × MoveOutcome :=
  match self.get_piece_at_bytes move_from with
  | Except.error e => (self, MoveOutcome.failure e)
  | Except.ok piece =>
    match self.set_piece_at_bytes move_to piece with
    | Except.error e => (self, MoveOutcome.failure e)
    | Except.ok next => (next, MoveOutcome.unimplemented)

/-- `ChessBoard::is_done` (src/main.rs lines 177-179): hardcoded `false`. -/
def ChessBoard.is_done (_ : ChessBoard) : Bool := false

/-- The byte encoding of the square at file `f`, rank `r` (both 1-based), as
used by the source's own test: `[96 + i as u8, 48 + j as u8]`. -/
def coordBytes (f r : Nat) : List Nat := [96 + f, 48 + r]

/-! ## The index expressions of `get_piece_at_bytes`/`set_piece_at_bytes`
specialized to a `coordBytes f r` input -/

/-- Row index `(coord[1] & 0x0F) - 1` at `coord = coordBytes f r`. -/
def rowIdx (r : Nat) : Nat := ((48 + r) &&& 0x0F) - 1

/-- Column index `((coord[0] - 1) & 0b0110) >> 1` at `coord = coordBytes f r`. -/
def colIdx (f : Nat) : Nat := ((96 + f - 1) &&& 0b0110) >>> 1

/-- Side selector `((coord[0] - 1) & 1) != 0` at `coord = coordBytes f r`. -/
def sideIdx (f : Nat) : Bool := decide ((96 + f - 1) &&& 1 ≠ 0)

/-- The byte encoding of an abstract piece (kind, color) built with the
source's own constructors: `SET_BLACK` for Black, `SET_WHITE` for White. -/
def pieceByte (black : Bool) (kind : Nat) : Nat :=
  if black then SET_BLACK kind else SET_WHITE kind

end FreightChess

namespace FreightChess

/-! ## Spec-side definition for the initial-position claim -/

/-- Back rank of the standard starting position, by file (spec §4.1:
"R,N,B,Q,K,B,N,R"). -/
def backRank : Nat → Nat
  | 1 => ROOK
  | 2 => KNIGHT
  | 3 => BISHOP
  | 4 => QUEEN
  | 5 => KING
  | 6 => BISHOP
  | 7 => KNIGHT
  | 8 => ROOK
  | _ => EMPTY

/-- Spec-side statement of the standard starting position (spec §4.1 / §8):
White back rank on rank 1, White pawns on rank 2, Black pawns on rank 7,
Black back rank (color bit set) on rank 8, everything else Empty.  Used only
to state the refinement claim about `ChessBoard.new`. -/
def standardStart (f r : Nat) : Nat :=
  if r = 1 then backRank f
  else if r = 2 then PAWN
  else if r = 7 then BLACK + PAWN
  else if r = 8 then BLACK + backRank f
  else EMPTY

end FreightChess

namespace FreightChess

/-- **C2.** `is_done` is hardcoded to `false` in the source (with a TODO
comment), so it is `false` on every board — in particular on any
checkmate position — contradicting the claim that it is `true` whenever the
game status is not InProgress. -/
theorem is_done_always_false : ∀ b : ChessBoard, b.is_done = false :=
  fun _ => rfl

/-- **C7.** `make_move` on the initial board from a2 to a3 — a pair of
in-range squares holding a legal White pawn push — reaches the `todo!()`
macro (modelled as `MoveOutcome.unimplemented`), i.e. the process panics
instead of returning a `Result`. -/
theorem make_move_in_range_hits_todo :
    (ChessBoard.new.make_move (coordBytes 1 2) (coordBytes 1 3)).2
      = MoveOutcome.unimplemented := by
  decide

/-- **C1.** On the initial board, moving the White rook from a1 to a3 is
illegal (its path is blocked by the a2 pawn), yet `make_move` copies the rook
onto a3 and then hits `todo!()`: it neither returns an `IllegalMove` failure
(no such variant exists in `ChessErr`) nor leaves the board unapplied. -/
theorem make_move_blocked_rook_mutates_and_hits_todo :
    (ChessBoard.new.make_move (coordBytes 1 1) (coordBytes 1 3)).2
        = MoveOutcome.unimplemented
    ∧ (ChessBoard.new.make_move (coordBytes 1 1) (coordBytes 1 3)).1.get_piece_at_bytes
        (coordBytes 1 3) = Except.ok (SET_WHITE ROOK)
    ∧ ChessBoard.new.get_piece_at_bytes (coordBytes 1 3) = Except.ok EMPTY := by
  refine ⟨by decide, by decide, by decide⟩

/-- **C8.** On the initial board, `make_move` from the Empty square a3 to a2
does not return a `NoPieceToMove` failure (no such variant exists in
`ChessErr`): it overwrites the White pawn on a2 with Empty and then hits
`todo!()`. -/
theorem make_move_empty_source_mutates_and_hits_todo :
    ChessBoard.new.get_piece_at_bytes (coordBytes 1 3) = Except.ok EMPTY
    ∧ (ChessBoard.new.make_move (coordBytes 1 3) (coordBytes 1 2)).2
        = MoveOutcome.unimplemented
    ∧ (ChessBoard.new.make_move (coordBytes 1 3) (coordBytes 1 2)).1.get_piece_at_bytes
        (coordBytes 1 2) = Except.ok EMPTY
    ∧ ChessBoard.new.get_piece_at_bytes (coordBytes 1 2) = Except.ok (SET_WHITE PAWN) := by
  refine ⟨by decide, by decide, by decide, by decide⟩

/-- **C6.** Whenever `make_move` returns a failure (any error kind), the board
is exactly what it was before the call: both error paths — invalid source
coordinate and invalid destination coordinate — return before any write. -/
theorem make_move_failure_preserves_board :
    ∀ (b : ChessBoard) (mf mt : List Nat) (e : ChessErr),
      (b.make_move mf mt).2 = MoveOutcome.failure e → (b.make_move mf mt).1 = b := by
  intro b mf mt e h
  unfold ChessBoard.make_move at h ⊢
  cases hg : b.get_piece_at_bytes mf with
  | error e' => simp [hg]
  | ok piece =>
    simp only [hg] at h ⊢
    cases hs : b.set_piece_at_bytes mt piece with
    | error e' => simp [hs]
    | ok next =>
      simp only [hs] at h
      exact absurd h (by simp)

/-- Witness for C6: a concrete failing call (empty coordinate slice) whose
result board is the unchanged input board. -/
theorem make_move_failure_preserves_board_witness :
    (ChessBoard.new.make_move [] []).1 = ChessBoard.new :=
  make_move_failure_preserves_board ChessBoard.new [] []
    (ChessErr.InvalidIndexing "This is an invalid index") rfl

/-- **C3.** The freshly constructed board holds the standard starting
position: for every file `f` and rank `r` in 1..8, `get` at that square
returns exactly the piece the specification's starting diagram puts there
(White back rank R,N,B,Q,K,B,N,R on rank 1, pawns on rank 2, Black mirrored
on ranks 7-8, Empty on ranks 3-6; in particular a1 = White Rook,
e1 = White King, a2 = White Pawn, a3 = Empty, e8 = Black King,
a7 = Black Pawn, a6 = Empty). -/
theorem new_board_is_standard_start :
    ∀ f, f < 9 → ∀ r, r < 9 → 1 ≤ f → 1 ≤ r →
      ChessBoard.new.get_piece_at_bytes (coordBytes f r)
        = Except.ok (standardStart f r) := by
  decide

/-- Witness for C3 at the concrete square e1: the White King. -/
theorem new_board_is_standard_start_witness :
    ChessBoard.new.get_piece_at_bytes (coordBytes 5 1) = Except.ok (standardStart 5 1) :=
  new_board_is_standard_start 5 (by decide) 1 (by decide) (by decide) (by decide)

end FreightChess

namespace FreightChess

/-! ## Helper lemmas about the nibble-packed cells -/

theorem GET_RIGHT_lt (p : Nat) : GET_RIGHT p < 16 := by
  unfold GET_RIGHT RIGHT_MASK
  exact Nat.lt_succ_of_le Nat.and_le_right

theorem GET_LEFT_lt (p : Nat) : GET_LEFT p < 16 := by
  unfold GET_LEFT LEFT_MASK
  rw [Nat.shiftRight_eq_div_pow]
  have h1 : p &&& 240 ≤ 240 := Nat.and_le_right
  omega

theorem pair_left : ∀ l, l < 16 → ∀ r, r < 16 → GET_LEFT (SET_CELL_PAIR l r) = l := by
  decide

theorem pair_right : ∀ l, l < 16 → ∀ r, r < 16 → GET_RIGHT (SET_CELL_PAIR l r) = r := by
  decide

theorem cell_get_set_same (pair p : Nat) (side : Bool) (hp : p < 16) :
    GET_CELL_BOOLEAN (SET_CELL_BOOLEAN pair side p) side = p := by
  cases side with
  | false =>
    simp [GET_CELL_BOOLEAN, SET_CELL_BOOLEAN, SET_LEFT]
    exact pair_left p hp (GET_RIGHT pair) (GET_RIGHT_lt pair)
  | true =>
    simp [GET_CELL_BOOLEAN, SET_CELL_BOOLEAN, SET_RIGHT]
    exact pair_right (GET_LEFT pair) (GET_LEFT_lt pair) p hp

theorem cell_get_set_other (pair p : Nat) (side : Bool) (hp : p < 16) :
    GET_CELL_BOOLEAN (SET_CELL_BOOLEAN pair side p) (!side)
      = GET_CELL_BOOLEAN pair (!side) := by
  cases side with
  | false =>
    simp [GET_CELL_BOOLEAN, SET_CELL_BOOLEAN, SET_LEFT]
    exact pair_right p hp (GET_RIGHT pair) (GET_RIGHT_lt pair)
  | true =>
    simp [GET_CELL_BOOLEAN, SET_CELL_BOOLEAN, SET_RIGHT]
    exact pair_left (GET_LEFT pair) (GET_LEFT_lt pair) p hp

theorem readCell_writeCell_same (bd : Fin 8 → Fin 4 → Nat) (r c v : Nat)
    (hr : r < 8) (hc : c < 4) :
    readCell (writeCell bd r c v) r c = v := by
  simp [readCell, writeCell, hr, hc]

theorem readCell_writeCell_other (bd : Fin 8 → Fin 4 → Nat) (r c v r' c' : Nat)
    (hr' : r' < 8) (hc' : c' < 4) (hne : r' ≠ r ∨ c' ≠ c) :
    readCell (writeCell bd r c v) r' c' = readCell bd r' c' := by
  have hcond : ¬(r' = r ∧ c' = c) := by tauto
  simp [readCell, writeCell, hr', hc', hcond]

theorem coord_valid_range : ∀ f, f < 9 → ∀ r, r < 9 → 1 ≤ f → 1 ≤ r →
    is_valid_piece (coordBytes f r) = true := by
  decide

theorem rowIdx_lt : ∀ r, r < 9 → 1 ≤ r → rowIdx r < 8 := by decide

theorem colIdx_lt : ∀ f, f < 9 → 1 ≤ f → colIdx f < 4 := by decide

theorem rowIdx_inj : ∀ r1, r1 < 9 → ∀ r2, r2 < 9 → 1 ≤ r1 → 1 ≤ r2 →
    rowIdx r1 = rowIdx r2 → r1 = r2 := by decide

theorem colIdx_sideIdx_inj : ∀ f1, f1 < 9 → ∀ f2, f2 < 9 →
    (1 ≤ f1 ∧ 1 ≤ f2 ∧ colIdx f1 = colIdx f2 ∧ sideIdx f1 = sideIdx f2) → f1 = f2 := by decide

theorem get_coordBytes (b : ChessBoard) (f r : Nat)
    (hv : is_valid_piece (coordBytes f r) = true) :
    b.get_piece_at_bytes (coordBytes f r)
      = Except.ok (GET_CELL_BOOLEAN (readCell b.board (rowIdx r) (colIdx f)) (sideIdx f)) := by
  unfold ChessBoard.get_piece_at_bytes
  rw [hv]
  rfl

theorem set_coordBytes (b : ChessBoard) (f r piece : Nat)
    (hv : is_valid_piece (coordBytes f r) = true) :
    b.set_piece_at_bytes (coordBytes f r) piece
      = Except.ok ⟨writeCell b.board (rowIdx r) (colIdx f)
          (SET_CELL_BOOLEAN (readCell b.board (rowIdx r) (colIdx f)) (sideIdx f) piece),
          b.moves⟩ := by
  unfold ChessBoard.set_piece_at_bytes
  rw [hv]
  rfl

end FreightChess

namespace FreightChess

theorem pieceByte_lt : ∀ kind, kind < 7 → ∀ black : Bool, pieceByte black kind < 16 := by
  decide

theorem pieceByte_num : ∀ kind, kind < 7 → ∀ black : Bool,
    GET_NUM (pieceByte black kind) = kind := by decide

theorem pieceByte_color : ∀ kind, kind < 7 → ∀ black : Bool,
    GET_COLOR (pieceByte black kind) = if black = true ∧ kind ≠ EMPTY then 1 else 0 := by
  decide

/-- **C5.** Round-trip: writing any piece (kind 0..6, either color, encoded by
the source's `SET_WHITE`/`SET_BLACK` constructors) to any valid square and
reading it back returns exactly the written byte; its kind is preserved, and
its color bit is the one that was set except for Empty, whose color bit is
cleared by `SET_BLACK` (so Empty always reads back as White). -/
theorem set_then_get_roundtrip :
    ∀ (b : ChessBoard) (f r kind : Nat) (black : Bool),
      f < 9 → r < 9 → 1 ≤ f → 1 ≤ r → kind ≤ 6 →
      ∃ b', b.set_piece_at_bytes (coordBytes f r) (pieceByte black kind) = Except.ok b'
        ∧ b'.get_piece_at_bytes (coordBytes f r) = Except.ok (pieceByte black kind)
        ∧ GET_NUM (pieceByte black kind) = kind
        ∧ GET_COLOR (pieceByte black kind) = if black = true ∧ kind ≠ EMPTY then 1 else 0 := by
  intro b f r kind black hf hr hf1 hr1 hk
  have hk7 : kind < 7 := Nat.lt_succ_of_le hk
  have hv := coord_valid_range f hf r hr hf1 hr1
  have hp := pieceByte_lt kind hk7 black
  refine ⟨_, set_coordBytes b f r _ hv, ?_,
    pieceByte_num kind hk7 black, pieceByte_color kind hk7 black⟩
  rw [get_coordBytes _ f r hv]
  show Except.ok (GET_CELL_BOOLEAN (readCell (writeCell b.board (rowIdx r) (colIdx f)
      (SET_CELL_BOOLEAN (readCell b.board (rowIdx r) (colIdx f)) (sideIdx f)
        (pieceByte black kind)))
      (rowIdx r) (colIdx f)) (sideIdx f)) = Except.ok (pieceByte black kind)
  rw [readCell_writeCell_same _ _ _ _ (rowIdx_lt r hr hr1) (colIdx_lt f hf hf1)]
  rw [cell_get_set_same _ _ _ hp]

/-- Witness for C5 at b4 with a "Black Empty": the write succeeds and reads
back as byte 0, i.e. Empty with the color bit cleared. -/
theorem set_then_get_roundtrip_witness :
    ∃ b', ChessBoard.new.set_piece_at_bytes (coordBytes 2 4) (pieceByte true 0) = Except.ok b'
      ∧ b'.get_piece_at_bytes (coordBytes 2 4) = Except.ok (pieceByte true 0)
      ∧ GET_NUM (pieceByte true 0) = 0
      ∧ GET_COLOR (pieceByte true 0) = if true = true ∧ (0 : Nat) ≠ EMPTY then 1 else 0 :=
  set_then_get_roundtrip ChessBoard.new 2 4 0 true (by decide) (by decide) (by decide)
    (by decide) (by decide)

/-- **C9.** Frame: writing a piece byte to one valid square leaves `get`
unchanged on every other valid square — a write only touches its own nibble
of its own cell. -/
theorem set_mutates_exactly_one_square :
    ∀ (b : ChessBoard) (p f1 r1 f2 r2 : Nat),
      p < 16 → f1 < 9 → r1 < 9 → 1 ≤ f1 → 1 ≤ r1 → f2 < 9 → r2 < 9 → 1 ≤ f2 → 1 ≤ r2 →
      ¬(f1 = f2 ∧ r1 = r2) →
      ∃ b', b.set_piece_at_bytes (coordBytes f1 r1) p = Except.ok b'
        ∧ b'.get_piece_at_bytes (coordBytes f2 r2) = b.get_piece_at_bytes (coordBytes f2 r2) := by
  intro b p f1 r1 f2 r2 hp hf1 hr1 hf1' hr1' hf2 hr2 hf2' hr2' hne
  have hv1 := coord_valid_range f1 hf1 r1 hr1 hf1' hr1'
  have hv2 := coord_valid_range f2 hf2 r2 hr2 hf2' hr2'
  refine ⟨_, set_coordBytes b f1 r1 p hv1, ?_⟩
  rw [get_coordBytes b f2 r2 hv2]
  rw [get_coordBytes _ f2 r2 hv2]
  show Except.ok (GET_CELL_BOOLEAN (readCell (writeCell b.board (rowIdx r1) (colIdx f1)
      (SET_CELL_BOOLEAN (readCell b.board (rowIdx r1) (colIdx f1)) (sideIdx f1) p))
      (rowIdx r2) (colIdx f2)) (sideIdx f2))
    = Except.ok (GET_CELL_BOOLEAN (readCell b.board (rowIdx r2) (colIdx f2)) (sideIdx f2))
  by_cases hrr : r1 = r2
  · subst hrr
    have hff : f1 ≠ f2 := fun hc => hne ⟨hc, rfl⟩
    by_cases hcol : colIdx f1 = colIdx f2
    · have hside : sideIdx f1 ≠ sideIdx f2 := fun hs =>
        hff (colIdx_sideIdx_inj f1 hf1 f2 hf2 ⟨hf1', hf2', hcol, hs⟩)
      rw [← hcol]
      rw [readCell_writeCell_same _ _ _ _ (rowIdx_lt r1 hr1 hr1') (colIdx_lt f1 hf1 hf1')]
      have hnot : sideIdx f2 = !(sideIdx f1) := by
        cases h1 : sideIdx f1 <;> cases h2 : sideIdx f2 <;> simp_all
      rw [hnot, cell_get_set_other _ _ _ hp]
    · rw [readCell_writeCell_other _ _ _ _ _ _ (rowIdx_lt r1 hr1 hr1') (colIdx_lt f2 hf2 hf2')
        (Or.inr fun hc => hcol hc.symm)]
  · have hrow : rowIdx r2 ≠ rowIdx r1 := fun hc =>
      hrr (rowIdx_inj r2 hr2 r1 hr1 hr2' hr1' hc).symm
    rw [readCell_writeCell_other _ _ _ _ _ _ (rowIdx_lt r2 hr2 hr2') (colIdx_lt f2 hf2 hf2')
      (Or.inl hrow)]

/-- Witness for C9: writing a Queen byte to a1 leaves b1 unchanged. -/
theorem set_mutates_exactly_one_square_witness :
    ∃ b', ChessBoard.new.set_piece_at_bytes (coordBytes 1 1) 5 = Except.ok b'
      ∧ b'.get_piece_at_bytes (coordBytes 2 1)
          = ChessBoard.new.get_piece_at_bytes (coordBytes 2 1) :=
  set_mutates_exactly_one_square ChessBoard.new 5 1 1 2 1 (by decide) (by decide) (by decide)
    (by decide) (by decide) (by decide) (by decide) (by decide) (by decide) (by decide)

end FreightChess

namespace FreightChess

/-! ## Characterizing the coordinate validation -/

theorem fileByte_iff : ∀ a, a < 256 →
    ((a &&& 0xF0 = 96 ∧ 1 ≤ a &&& 0x0F ∧ a &&& 0x0F ≤ 8) ↔ (97 ≤ a ∧ a ≤ 104)) := by
  decide

theorem rankByte_iff : ∀ a, a < 256 →
    ((a &&& 0xF0 = 48 ∧ 1 ≤ a &&& 0x0F ∧ a &&& 0x0F ≤ 8) ↔ (49 ≤ a ∧ a ≤ 56)) := by
  decide

theorem is_valid_piece_pair (a b : Nat) :
    is_valid_piece [a, b] = true
      ↔ (a &&& 0xF0 = 96 ∧ 1 ≤ a &&& 0x0F ∧ a &&& 0x0F ≤ 8
         ∧ 1 ≤ b &&& 0x0F ∧ b &&& 0x0F ≤ 8 ∧ b &&& 0xF0 = 48) := by
  simp [is_valid_piece]
  tauto

theorem is_valid_piece_chars (coord : List Nat) (hb : ∀ x ∈ coord, x < 256) :
    is_valid_piece coord = true
      ↔ ∃ a b, coord = [a, b] ∧ 97 ≤ a ∧ a ≤ 104 ∧ 49 ≤ b ∧ b ≤ 56 := by
  match coord with
  | [] => simp [is_valid_piece]
  | [a] => simp [is_valid_piece]
  | [a, b] =>
    have ha : a < 256 := hb a (by simp)
    have hbb : b < 256 := hb b (by simp)
    rw [is_valid_piece_pair]
    constructor
    · rintro ⟨h1, h2, h3, h4, h5, h6⟩
      have hf := (fileByte_iff a ha).mp ⟨h1, h2, h3⟩
      have hr := (rankByte_iff b hbb).mp ⟨h6, h4, h5⟩
      exact ⟨a, b, rfl, hf.1, hf.2, hr.1, hr.2⟩
    · rintro ⟨a', b', heq, h1, h2, h3, h4⟩
      obtain ⟨rfl, rfl⟩ : a = a' ∧ b = b' := by simpa using heq
      have hf := (fileByte_iff a ha).mpr ⟨h1, h2⟩
      have hr := (rankByte_iff b hbb).mpr ⟨h3, h4⟩
      exact ⟨hf.1, hf.2.1, hf.2.2, hr.2.1, hr.2.2, hr.1⟩
  | a :: b :: c :: t =>
    have hlen : (a :: b :: c :: t).length ≠ 2 := by
      simp only [List.length_cons]
      omega
    simp [is_valid_piece, hlen]

theorem get_isOk (b : ChessBoard) (coord : List Nat) :
    (b.get_piece_at_bytes coord).isOk = is_valid_piece coord := by
  unfold ChessBoard.get_piece_at_bytes
  cases h : is_valid_piece coord <;> simp [h, Except.isOk, Except.toBool]

theorem set_isOk (b : ChessBoard) (coord : List Nat) (p : Nat) :
    (b.set_piece_at_bytes coord p).isOk = is_valid_piece coord := by
  unfold ChessBoard.set_piece_at_bytes
  cases h : is_valid_piece coord <;> simp [h, Except.isOk, Except.toBool]

theorem get_invalid (b : ChessBoard) (coord : List Nat)
    (h : is_valid_piece coord = false) :
    b.get_piece_at_bytes coord
      = Except.error (ChessErr.InvalidIndexing "This is an invalid index") := by
  unfold ChessBoard.get_piece_at_bytes
  rw [h]
  rfl

theorem set_invalid (b : ChessBoard) (coord : List Nat) (p : Nat)
    (h : is_valid_piece coord = false) :
    b.set_piece_at_bytes coord p
      = Except.error (ChessErr.InvalidIndexing "This is an invalid index") := by
  unfold ChessBoard.set_piece_at_bytes
  rw [h]
  rfl

/-- **C4.** With the square (file `f`, rank `r`) encoded as the byte pair the
source addresses squares by, `get` and `set` succeed exactly when both
components lie in 1..8, and fail with the `InvalidIndexing` error (the
source's name for the spec's InvalidSquare) whenever either component is out
of range. -/
theorem get_set_square_range :
    ∀ (b : ChessBoard) (p f r : Nat), f < 160 → r < 208 →
      (((b.get_piece_at_bytes (coordBytes f r)).isOk = true
          ↔ (1 ≤ f ∧ f ≤ 8 ∧ 1 ≤ r ∧ r ≤ 8))
       ∧ ((b.set_piece_at_bytes (coordBytes f r) p).isOk = true
          ↔ (1 ≤ f ∧ f ≤ 8 ∧ 1 ≤ r ∧ r ≤ 8))
       ∧ (¬(1 ≤ f ∧ f ≤ 8 ∧ 1 ≤ r ∧ r ≤ 8) →
            b.get_piece_at_bytes (coordBytes f r)
                = Except.error (ChessErr.InvalidIndexing "This is an invalid index")
            ∧ b.set_piece_at_bytes (coordBytes f r) p
                = Except.error (ChessErr.InvalidIndexing "This is an invalid index"))) := by
  intro b p f r hf hr
  have hbytes : ∀ x ∈ coordBytes f r, x < 256 := by
    intro x hx
    simp [coordBytes] at hx
    rcases hx with rfl | rfl <;> omega
  have hiff : is_valid_piece (coordBytes f r) = true ↔ (1 ≤ f ∧ f ≤ 8 ∧ 1 ≤ r ∧ r ≤ 8) := by
    rw [is_valid_piece_chars _ hbytes]
    constructor
    · rintro ⟨a', b', heq, h1, h2, h3, h4⟩
      obtain ⟨ha, hb2⟩ : 96 + f = a' ∧ 48 + r = b' := by simpa [coordBytes] using heq
      omega
    · intro h
      exact ⟨96 + f, 48 + r, rfl, by omega, by omega, by omega, by omega⟩
  refine ⟨?_, ?_, ?_⟩
  · rw [get_isOk]
    exact hiff
  · rw [set_isOk]
    exact hiff
  · intro hno
    have hfalse : is_valid_piece (coordBytes f r) = false := by
      cases h : is_valid_piece (coordBytes f r)
      · rfl
      · exact absurd (hiff.mp h) hno
    exact ⟨get_invalid b _ hfalse, set_invalid b _ p hfalse⟩

/-- Witness for C4 at the out-of-range coordinate (0, 0). -/
theorem get_set_square_range_witness :
    ChessBoard.new.get_piece_at_bytes (coordBytes 0 0)
        = Except.error (ChessErr.InvalidIndexing "This is an invalid index")
    ∧ ChessBoard.new.set_piece_at_bytes (coordBytes 0 0) 0
        = Except.error (ChessErr.InvalidIndexing "This is an invalid index") :=
  (get_set_square_range ChessBoard.new 0 0 0 (by decide) (by decide)).2.2 (by decide)

/-- **C10.** The byte slices accepted by the validation are exactly the
two-byte ASCII algebraic strings: length 2, first byte in 'a'..'h'
(0x61..0x68), second byte in '1'..'8' (0x31..0x38); every other byte slice —
any other length, or bytes outside those ranges, such as the numeric pair
[5, 2] — makes `get`/`set` fail with `InvalidIndexing`. -/
theorem byte_coordinate_validation :
    ∀ (coord : List Nat), (∀ x ∈ coord, x < 256) →
      ((is_valid_piece coord = true
          ↔ ∃ a b, coord = [a, b] ∧ 97 ≤ a ∧ a ≤ 104 ∧ 49 ≤ b ∧ b ≤ 56)
       ∧ (is_valid_piece coord = false →
            ∀ (bd : ChessBoard) (p : Nat),
              bd.get_piece_at_bytes coord
                  = Except.error (ChessErr.InvalidIndexing "This is an invalid index")
              ∧ bd.set_piece_at_bytes coord p
                  = Except.error (ChessErr.InvalidIndexing "This is an invalid index"))) := by
  intro coord hb
  refine ⟨is_valid_piece_chars coord hb, ?_⟩
  intro h bd p
  exact ⟨get_invalid bd coord h, set_invalid bd coord p h⟩

/-- Witness for C10 at the numeric coordinate pair [5, 2], whose components
are in 1..8 but which is not an ASCII algebraic string. -/
theorem byte_coordinate_validation_witness :
    ChessBoard.new.get_piece_at_bytes [5, 2]
        = Except.error (ChessErr.InvalidIndexing "This is an invalid index")
    ∧ ChessBoard.new.set_piece_at_bytes [5, 2] 0
        = Except.error (ChessErr.InvalidIndexing "This is an invalid index") :=
  ((byte_coordinate_validation [5, 2] (by decide)).2 (by decide) ChessBoard.new 0)

end FreightChess
